import Mathlib

set_option autoImplicit false

/-!
Verification of the view-composition and refresh-scheduling core
(src/src/view/mod.rs): the event dispatcher (free function handle_event),
the render engine (free function render) and the render-queue drain
(process_render_queue), together with the rectangle operations they use.
The geometry module (geom.rs) is not part of the sources, so the rectangle
operations are modelled from the specification; everything else is a direct
translation of the Rust code.

Modelling conventions: the polymorphic widget trait View is a tree node
carrying its identity, rectangle, policy hooks and an event handler; the
mutable Context and the mutable self of a handler are threaded as an
abstract state, and the handler additionally reports the events it pushed
onto the bus it was given and the entries it added to the render queue.
Each own-handler invocation is recorded in a trace of (id, event) pairs,
and each paint-routine invocation in a trace of (id, rectangle) pairs, so
that claims about which handlers run and what gets painted are statable.
The asynchronous display driver is a parameter: its wait is a predicate on
tokens (true when wait returned Ok) and its update is a state-passing
function returning an optional token (none when update returned Err).
-/

namespace Plato

/-- Modelled from the spec: the Rectangle of geom.rs is missing from the
sources.  An axis-aligned integer region with inclusive minimum and
exclusive maximum corners (min.x ≤ max.x, min.y ≤ max.y for proper
rectangles). -/
structure Rect where
  minX : Int
  minY : Int
  maxX : Int
  maxY : Int
deriving DecidableEq

namespace Rect

/-- Modelled from the spec: the includes(point) predicate of geom.rs; the
point lies inside the half-open extent of the rectangle. -/
def includes (r : Rect) (x y : Int) : Bool :=
  decide (r.minX ≤ x ∧ x < r.maxX ∧ r.minY ≤ y ∧ y < r.maxY)

/-- Modelled from the spec: the overlaps / intersects predicate of geom.rs;
the open interiors of the two rectangles meet in both axes. -/
def overlaps (a b : Rect) : Bool :=
  decide (a.minX < b.maxX ∧ b.minX < a.maxX ∧ a.minY < b.maxY ∧ b.minY < a.maxY)

/-- Modelled from the spec: the touches predicate of geom.rs; the closed
extents meet in both axes, i.e. the rectangles overlap or are edge-adjacent
with zero gap. -/
def touches (a b : Rect) : Bool :=
  decide (a.minX ≤ b.maxX ∧ b.minX ≤ a.maxX ∧ a.minY ≤ b.maxY ∧ b.minY ≤ a.maxY)

/-- Modelled from the spec: the contains predicate of geom.rs; b lies
entirely inside a. -/
def contains (a b : Rect) : Bool :=
  decide (a.minX ≤ b.minX ∧ b.maxX ≤ a.maxX ∧ a.minY ≤ b.minY ∧ b.maxY ≤ a.maxY)

/-- Modelled from the spec: the absorb operation of geom.rs; grows a to the
bounding union of a and b. -/
def absorb (a b : Rect) : Rect :=
  ⟨min a.minX b.minX, min a.minY b.minY, max a.maxX b.maxX, max a.maxY b.maxY⟩

/-- Modelled from the spec: the intersection operation of geom.rs; the
common region of two overlapping rectangles, none otherwise. -/
def intersection (a b : Rect) : Option Rect :=
  if a.overlaps b then
    some ⟨max a.minX b.minX, max a.minY b.minY, min a.maxX b.maxX, min a.maxY b.maxY⟩
  else
    none

end Rect

/-!
The merge step of the render engine (src/src/view/mod.rs lines 238-266).
The source works on the tail of a Vec; the model works on the head of the
reversed list, and mergeOne converts between the two representations.
-/

/-- The inner while loop of the merge step (lines 246-254): as long as the
two most recent running rectangles touch, pop the newest and absorb it into
its predecessor.  The list is in reversed order: head = newest. -/
def collapseRev (a : Rect) : List Rect → List Rect
  | [] => [a]
  | b :: rest => if a.touches b then collapseRev (b.absorb a) rest else a :: b :: rest

/-- One iteration of the merge loop (lines 239-266) for a produced rectangle
r, on the reversed running list (head = most recently added). -/
def mergeOneRev (rsRev : List Rect) (r : Rect) : List Rect :=
  match rsRev with
  | [] => [r]
  | last :: rest =>
    if r.touches last then
      collapseRev (last.absorb r) rest
    else if (last :: rest).any (fun e => e.contains r) then
      last :: rest
    else
      r :: last :: rest

/-- One iteration of the merge loop in source order (newest rectangle at the
end of the list, as in the Vec of the source). -/
def mergeOne (rs : List Rect) (r : Rect) : List Rect :=
  (mergeOneRev rs.reverse r).reverse

/-- The whole merge loop: fold every produced rectangle into the running
list, in order. -/
def mergeAll (rs : List Rect) (produced : List Rect) : List Rect :=
  produced.foldl mergeOne rs

/-- Invariant of finalized running lists, in source order: adjacent entries
never touch, and no entry contains a later entry. -/
def Merged (l : List Rect) : Prop :=
  l.Chain' (fun a b => a.touches b = false) ∧ l.Pairwise (fun a b => a.contains b = false)

/-- The same invariant on the reversed representation. -/
def MergedRev (l : List Rect) : Prop :=
  l.Chain' (fun a b => a.touches b = false) ∧ l.Pairwise (fun a b => b.contains a = false)

/-- A point is covered by a list of rectangles when some entry includes it. -/
def coveredAt (l : List Rect) (x y : Int) : Bool :=
  l.any (fun r => r.includes x y)

/-!
The widget tree.  A node carries the data the View trait of the source
exposes to handle_event and render: id(), rect(), might_skip, the node's
own handle_event, is_background, render_rect and children().  The handler
maps the threaded mutable state and the event to the new state, the
handled/captured flag, the events it pushed onto the bus it was given and
the entries it pushed onto the render queue.
-/

mutual
inductive VNode (σ ε ρ : Type) : Type where
  | mk (id : Nat) (rect : Rect) (skip : ε → Bool)
    (handler : σ → ε → σ × Bool × List ε × List ρ)
    (isBg : Bool) (rrHook : Rect → Rect)
    (children : VForest σ ε ρ)
inductive VForest (σ ε ρ : Type) : Type where
  | nil : VForest σ ε ρ
  | cons (c : VNode σ ε ρ) (rest : VForest σ ε ρ) : VForest σ ε ρ
end

variable {σ ε ρ : Type}

/-- view.len() == 0, i.e. the node has no children. -/
def VForest.isNil : VForest σ ε ρ → Bool
  | .nil => true
  | .cons _ _ => false

/-- The child at the given index (index 0 is the bottom of the paint
order, as in children()[i] of the source). -/
def forestGet : VForest σ ε ρ → Nat → Option (VNode σ ε ρ)
  | .nil, _ => none
  | .cons c _, 0 => some c
  | .cons _ rest, n + 1 => forestGet rest n

/-- The children from index n upward. -/
def forestDrop : Nat → VForest σ ε ρ → VForest σ ε ρ
  | 0, f => f
  | _ + 1, .nil => .nil
  | n + 1, .cons _ rest => forestDrop n rest

mutual
/-- All widget identifiers in the subtree rooted at a node. -/
def vnodeIds : VNode σ ε ρ → List Nat
  | .mk i _ _ _ _ _ cs => i :: forestIds cs
/-- All widget identifiers of the subtrees of a forest. -/
def forestIds : VForest σ ε ρ → List Nat
  | .nil => []
  | .cons c rest => vnodeIds c ++ forestIds rest
end

/-!
The event dispatcher (src/src/view/mod.rs lines 157-192).  The mutable
Context of the source is the ctx field of the dispatch state; the render
queue is the list of entries added to it during the pass, and every
invocation of a node's own handler is recorded in the trace.
-/

/-- The observable dispatch state threaded through a pass: the abstract
mutable context, the render-queue entries added so far, and the trace of
own-handler invocations (widget id, event). -/
structure DState (σ ε ρ : Type) where
  ctx : σ
  rq : List ρ
  trace : List (Nat × ε)
deriving DecidableEq

/-- One invocation of a node's own handler (view.handle_event in the
source): returns the handled flag and the events the handler pushed onto
the bus it was handed, records the render-queue entries and the invocation
itself. -/
def runHandler (i : Nat) (h : σ → ε → σ × Bool × List ε × List ρ) (e : ε)
    (st : DState σ ε ρ) : Bool × List ε × DState σ ε ρ :=
  let r := h st.ctx e
  (r.2.1, r.2.2.1, ⟨r.1, st.rq ++ r.2.2.2, st.trace ++ [(i, e)]⟩)

/-- The retain pass of lines 181-183: offer every child-bus event, in
order, to the node's own handler; return the events the handler did not
consume, together with the events the handler pushed onto the temporary
bus during those calls. -/
def busFilter (i : Nat) (h : σ → ε → σ × Bool × List ε × List ρ) :
    List ε → DState σ ε ρ → List ε × List ε × DState σ ε ρ
  | [], st => ([], [], st)
  | e :: rest, st =>
    let r1 := runHandler i h e st
    let r2 := busFilter i h rest r1.2.2
    ((if r1.1 then r2.1 else e :: r2.1), r1.2.1 ++ r2.2.1, r2.2.2)

mutual
/-- The free function handle_event of lines 157-192.  Returns the captured
flag, the final parent bus, and the final dispatch state. -/
def handle_event (v : VNode σ ε ρ) (evt : ε) (parentBus : List ε)
    (st : DState σ ε ρ) : Bool × List ε × DState σ ε ρ :=
  match v with
  | .mk i _ sk h _ _ cs =>
    match cs with
    | .nil =>
      let r := runHandler i h evt st
      (r.1, parentBus ++ r.2.1, r.2.2)
    | .cons c rest =>
      if sk evt then (false, parentBus, st)
      else
        let rc := dispatchChildren (.cons c rest) evt st
        let rf := busFilter i h rc.2.1 rc.2.2
        let pb1 := parentBus ++ rf.1 ++ rf.2.1
        if rc.1.isSome then (true, pb1, rf.2.2)
        else
          let ro := runHandler i h evt rf.2.2
          (ro.1, pb1 ++ ro.2.1, ro.2.2)

/-- The child loop of lines 174-179: dispatch the event into the children
from the highest index to the lowest, stopping at the first child whose
recursive dispatch captures; the children share one local child bus that
starts empty.  The returned option is the index of the capturing child
(its presence is the captured flag of the source). -/
def dispatchChildren (f : VForest σ ε ρ) (evt : ε) (st : DState σ ε ρ) :
    Option Nat × List ε × DState σ ε ρ :=
  match f with
  | .nil => (none, [], st)
  | .cons c rest =>
    let r := dispatchChildren rest evt st
    match r.1 with
    | some j => (some (j + 1), r.2.1, r.2.2)
    | none =>
      let rc := handle_event c evt r.2.1 r.2.2
      if rc.1 then (some 0, rc.2.1, rc.2.2) else (none, rc.2.1, rc.2.2)
end

/-!
The render engine (src/src/view/mod.rs lines 197-271).  The framebuffer is
observable through the updating map of in-flight tokens, the recorded
paint-routine invocations and the driver wait results wOk (wOk tok = true
when fb.wait(tok) returned Ok).
-/

/-- The observable render state: the shared running rectangles, the
background rectangles, the in-flight updating map (token, rectangle), and
the trace of paint-routine invocations (widget id, rectangle argument). -/
structure RState where
  rects : List Rect
  bgs : List Rect
  updating : List (Nat × Rect)
  paints : List (Nat × Rect)
deriving DecidableEq

/-- The candidate loop of lines 210-233: for each candidate rectangle,
narrow it through the render_rect hook, purge the updating map when the
wait policy is set (an entry is retained when it does not overlap the
narrowed rectangle or its wait returned an error), invoke the paint
routine with the candidate rectangle, record the narrowed rectangle as
produced, and stop once the narrowed rectangle equals the whole node
rectangle.  Returns the updating map, the paint invocations and the
produced rectangles. -/
def renderLoop (wOk : Nat → Bool) (w : Bool) (i : Nat) (vrect : Rect)
    (rrHook : Rect → Rect) :
    List Rect → List (Nat × Rect) → List (Nat × Rect) × List (Nat × Rect) × List Rect
  | [], updating => (updating, [], [])
  | rect :: rest, updating =>
    let rr := rrHook rect
    let upd1 :=
      if w then updating.filter (fun tr => !(rr.overlaps tr.2) || !(wOk tr.1))
      else updating
    if vrect = rr then (upd1, [(i, rect)], [rr])
    else
      let r := renderLoop wOk w i vrect rrHook rest upd1
      (r.1, (i, rect) :: r.2.1, rr :: r.2.2)

mutual
/-- The free function render of lines 197-271: a node is directly rendered
when it has no children or is a background layer, in which case its
candidates are the rectangles queued against its id, followed by the
intersections of the running rectangles and of the background rectangles
with its rectangle, and the produced rectangles are merged into the
running list; otherwise the rectangles queued against its id are folded
into the background rectangles.  Children are then visited in ascending
index order. -/
def render (wOk : Nat → Bool) (v : VNode σ ε ρ) (w : Bool)
    (ids : Nat → List Rect) (st : RState) : RState :=
  match v with
  | .mk i rect _ _ isBg rrHook cs =>
    if cs.isNil || isBg then
      let cand := ids i ++ st.rects.filterMap (fun r => r.intersection rect) ++
        st.bgs.filterMap (fun r => r.intersection rect)
      let r := renderLoop wOk w i rect rrHook cand st.updating
      let rects1 := r.2.2.foldl mergeOne st.rects
      renderChildren wOk cs w ids ⟨rects1, st.bgs, r.1, st.paints ++ r.2.1⟩
    else
      renderChildren wOk cs w ids ⟨st.rects, st.bgs ++ ids i, st.updating, st.paints⟩

/-- The recursion of lines 268-270: render every child in ascending index
order, threading the render state. -/
def renderChildren (wOk : Nat → Bool) (f : VForest σ ε ρ) (w : Bool)
    (ids : Nat → List Rect) (st : RState) : RState :=
  match f with
  | .nil => st
  | .cons c rest => renderChildren wOk rest w ids (render wOk c w ids st)
end

/-- The prefix of a list up to and including the first element satisfying
the predicate (the whole list when none does): the candidates actually
processed by the candidate loop before its break. -/
def takeThrough {α : Type} (p : α → Bool) : List α → List α
  | [] => []
  | a :: rest => if p a then [a] else a :: takeThrough p rest

/-- The updating map after the purges performed for the given processed
candidates, in order. -/
def purgeAll (wOk : Nat → Bool) (w : Bool) (rrHook : Rect → Rect) :
    List Rect → List (Nat × Rect) → List (Nat × Rect)
  | [], u => u
  | c :: rest, u =>
    purgeAll wOk w rrHook rest
      (if w then u.filter (fun tr => !((rrHook c).overlaps tr.2) || !(wOk tr.1)) else u)

/-!
The render-queue drain (src/src/view/mod.rs lines 273-315), for one
(mode, wait) group.  The driver update call is a state-passing function
returning the new driver state and an optional token (none when the call
returned an error, which the source logs and otherwise ignores).
-/

/-- Append a rectangle to the vector a key maps to, inserting an empty
vector first when the key is absent: ids.entry(id).or_insert_with(Vec::new)
.push(rect) of line 287. -/
def entryPush : List (Nat × List Rect) → Nat → Rect → List (Nat × List Rect)
  | [], i, r => [(i, [r])]
  | (j, v) :: rest, i, r =>
    if i = j then (j, v ++ [r]) :: rest else (j, v) :: entryPush rest i r

/-- Map lookup with an empty default, the denotation used by render for
ids.get. -/
def assocGet : List (Nat × List Rect) → Nat → List Rect
  | [], _ => []
  | (j, v) :: rest, n => if n = j then v else assocGet rest n

/-- The map-rebuilding loop of lines 285-291, iterating over the group's
pairs (already reversed by the caller): entries with an id go into the
per-id map, entries without go into the background list. -/
def buildMaps : List (Option Nat × Rect) → List (Nat × List Rect) → List Rect →
    List (Nat × List Rect) × List Rect
  | [], ids, bgs => (ids, bgs)
  | (some i, r) :: rest, ids, bgs => buildMaps rest (entryPush ids i r) bgs
  | (none, r) :: rest, ids, bgs => buildMaps rest ids (bgs ++ [r])

/-- The hardware-refresh loop of lines 304-313: one driver update call per
merged rectangle; a returned token is registered in the updating map, an
error is dropped.  Returns the final driver state, the updating map and
the list of issued calls (rectangle, mode). -/
def issueUpdates {δ μ : Type} (upd : δ → Rect → μ → δ × Option Nat) (mode : μ) :
    List Rect → δ → List (Nat × Rect) → δ × List (Nat × Rect) × List (Rect × μ)
  | [], d, u => (d, u, [])
  | r :: rest, d, u =>
    let s := upd d r mode
    let u1 := match s.2 with
      | some tok => u ++ [(tok, r)]
      | none => u
    let ri := issueUpdates upd mode rest s.1 u1
    (ri.1, ri.2.1, (r, mode) :: ri.2.2)

/-- The driver state after issuing updates for the given rectangles. -/
def driveAll {δ μ : Type} (upd : δ → Rect → μ → δ × Option Nat) (mode : μ) :
    List Rect → δ → δ
  | [], d => d
  | r :: rest, d => driveAll upd mode rest (upd d r mode).1

/-- The (token, rectangle) pairs registered by the update loop: one pair
per successful driver call, nothing for failed calls. -/
def okPairs {δ μ : Type} (upd : δ → Rect → μ → δ × Option Nat) (mode : μ) :
    List Rect → δ → List (Nat × Rect)
  | [], _ => []
  | r :: rest, d =>
    let s := upd d r mode
    (match s.2 with
      | some tok => [(tok, r)]
      | none => []) ++ okPairs upd mode rest s.1

/-- The body of process_render_queue (lines 274-315) for one (mode, wait)
group: rebuild the per-id and background maps from the group's pairs in
reverse insertion order, invoke the render engine once against the tree
root with the group's wait flag, then issue one driver update per final
merged rectangle with the group's mode.  Returns the final driver state,
the final updating map and the issued calls. -/
def processGroup {δ μ : Type} (upd : δ → Rect → μ → δ × Option Nat)
    (wOk : Nat → Bool) (root : VNode σ ε ρ) (mode : μ) (w : Bool)
    (pairs : List (Option Nat × Rect)) (updating : List (Nat × Rect)) (d : δ) :
    δ × List (Nat × Rect) × List (Rect × μ) :=
  let m := buildMaps pairs.reverse [] []
  let st := render wOk root w (assocGet m.1) ⟨[], m.2, updating, []⟩
  issueUpdates upd mode st.rects d st.updating

/-!
Lemmas about the rectangle operations.
-/

theorem Rect.touches_comm (a b : Rect) : a.touches b = b.touches a := by
  simp only [touches, decide_eq_decide]
  constructor <;> (intro h; omega)

theorem Rect.contains_rfl (a : Rect) : a.contains a = true := by
  simp [contains]

theorem Rect.contains_trans {a b c : Rect} (h1 : a.contains b = true)
    (h2 : b.contains c = true) : a.contains c = true := by
  simp only [contains, decide_eq_true_eq] at *
  omega

theorem Rect.contains_absorb_left (a b : Rect) : (a.absorb b).contains a = true := by
  simp only [contains, absorb, decide_eq_true_eq]
  omega

theorem Rect.contains_absorb_right (a b : Rect) : (a.absorb b).contains b = true := by
  simp only [contains, absorb, decide_eq_true_eq]
  omega

theorem Rect.includes_of_contains {a b : Rect} {x y : Int} (h : a.contains b = true)
    (hx : b.includes x y = true) : a.includes x y = true := by
  simp only [contains, includes, decide_eq_true_eq] at *
  omega

theorem Rect.includes_absorb_left {a : Rect} (b : Rect) {x y : Int}
    (h : a.includes x y = true) : (a.absorb b).includes x y = true :=
  includes_of_contains (contains_absorb_left a b) h

theorem Rect.includes_absorb_right (a : Rect) {b : Rect} {x y : Int}
    (h : b.includes x y = true) : (a.absorb b).includes x y = true :=
  includes_of_contains (contains_absorb_right a b) h

/-!
Lemmas about the merge step: the invariant of finalized lists and the
conservation of covered points.
-/

theorem merged_iff (l : List Rect) : Merged l ↔ MergedRev l.reverse := by
  unfold Merged MergedRev
  rw [List.chain'_reverse, List.pairwise_reverse]
  constructor
  · rintro ⟨hc, hp⟩
    refine ⟨hc.imp (fun {a b} h => ?_), hp⟩
    show b.touches a = false
    rwa [Rect.touches_comm]
  · rintro ⟨hc, hp⟩
    refine ⟨hc.imp (fun {a b} h => ?_), hp⟩
    have h' : b.touches a = false := h
    rwa [Rect.touches_comm]

/-- The collapse loop yields a head that contains the rectangle it started
from, followed by an untouched suffix of the original list, and the result
is again adjacent-nontouching. -/
theorem collapseRev_spec (a : Rect) (l : List Rect)
    (hl : l.Chain' (fun x y => x.touches y = false)) :
    ∃ a' l', collapseRev a l = a' :: l' ∧ a'.contains a = true ∧
      l' <:+ l ∧ (a' :: l').Chain' (fun x y => x.touches y = false) := by
  induction l generalizing a with
  | nil =>
    exact ⟨a, [], rfl, Rect.contains_rfl a, List.suffix_refl _, List.chain'_singleton a⟩
  | cons b rest ih =>
    cases htb : a.touches b with
    | true =>
      obtain ⟨a', l', heq, hcont, hsuff, hchain⟩ := ih (b.absorb a) hl.tail
      refine ⟨a', l', ?_, ?_, ?_, hchain⟩
      · rw [collapseRev, htb, if_pos rfl, heq]
      · exact Rect.contains_trans hcont (Rect.contains_absorb_right b a)
      · exact hsuff.trans (List.suffix_cons b rest)
    | false =>
      refine ⟨a, b :: rest, ?_, Rect.contains_rfl a, List.suffix_refl _, ?_⟩
      · rw [collapseRev, htb]
        simp
      · exact List.chain'_cons.mpr ⟨htb, hl⟩

theorem mergedRev_mergeOneRev {rsRev : List Rect} (r : Rect) (h : MergedRev rsRev) :
    MergedRev (mergeOneRev rsRev r) := by
  match rsRev with
  | [] =>
    constructor <;> simp [mergeOneRev]
  | last :: rest =>
    obtain ⟨hc, hp⟩ := h
    cases htr : r.touches last with
    | true =>
      obtain ⟨a', l', heq, hcont, hsuff, hchain⟩ := collapseRev_spec (last.absorb r) rest hc.tail
      rw [mergeOneRev, htr, if_pos rfl, heq]
      refine ⟨hchain, List.pairwise_cons.mpr ⟨?_, ?_⟩⟩
      · intro b hb
        have hblast : b.contains last = false :=
          List.rel_of_pairwise_cons hp (hsuff.subset hb)
        cases hba : b.contains a' with
        | false => rfl
        | true =>
          have ha'last : a'.contains last = true :=
            Rect.contains_trans hcont (Rect.contains_absorb_left last r)
          have : b.contains last = true := Rect.contains_trans hba ha'last
          rw [this] at hblast
          exact absurd hblast (by simp)
      · exact (List.Pairwise.of_cons hp).sublist hsuff.sublist
    | false =>
      cases hany : (last :: rest).any (fun e => e.contains r) with
      | true =>
        rw [mergeOneRev, htr]
        simp only [Bool.false_eq_true, if_false, hany, if_pos rfl]
        exact ⟨hc, hp⟩
      | false =>
        rw [mergeOneRev, htr]
        simp only [Bool.false_eq_true, if_false, hany]
        refine ⟨List.chain'_cons.mpr ⟨htr, hc⟩, List.pairwise_cons.mpr ⟨?_, hp⟩⟩
        intro b hb
        exact eq_false_of_ne_true ((List.any_eq_false.mp hany) b hb)

theorem merged_mergeOne {rs : List Rect} (r : Rect) (h : Merged rs) :
    Merged (mergeOne rs r) := by
  rw [merged_iff, mergeOne, List.reverse_reverse]
  exact mergedRev_mergeOneRev r ((merged_iff rs).mp h)

theorem merged_mergeAll {rs : List Rect} (l : List Rect) (h : Merged rs) :
    Merged (mergeAll rs l) := by
  induction l generalizing rs with
  | nil => exact h
  | cons x xs ih => exact ih (merged_mergeOne x h)

theorem merged_nil : Merged [] := ⟨List.chain'_nil, List.Pairwise.nil⟩

/-- Re-inserting the last element of a merged list leaves it unchanged. -/
theorem mergeOne_of_merged_append {l : List Rect} {x : Rect}
    (h : Merged (l ++ [x])) : mergeOne l x = l ++ [x] := by
  have hkey : mergeOneRev l.reverse x = x :: l.reverse := by
    match hlr : l.reverse with
    | [] => rfl
    | last :: rest =>
      have hlast : l.getLast? = some last := by
        rw [← List.head?_reverse, hlr]
        rfl
      have htouch : x.touches last = false := by
        have := ((List.chain'_append.mp h.1).2.2) last hlast x rfl
        rwa [Rect.touches_comm]
      have hany : (last :: rest).any (fun e => e.contains x) = false := by
        apply List.any_eq_false.mpr
        intro e he
        have hel : e ∈ l := by
          rw [← List.mem_reverse, hlr]
          exact he
        exact ne_true_of_eq_false (List.pairwise_append.mp h.2 |>.2.2 e hel x (by simp))
      rw [mergeOneRev, htouch]
      simp only [Bool.false_eq_true, if_false, hany]

  rw [mergeOne, hkey]
  simp

/-- Running the merge step over an already-merged list from an empty running
list rebuilds exactly the same list. -/
theorem mergeAll_merged_id {l : List Rect} (h : Merged l) : mergeAll [] l = l := by
  induction l using List.reverseRecOn with
  | nil => rfl
  | append_singleton l x ih =>
    have hl : Merged l := by
      refine ⟨(List.chain'_append.mp h.1).1, h.2.sublist (List.sublist_append_left l [x])⟩
    rw [mergeAll, List.foldl_append, List.foldl_cons, List.foldl_nil]
    rw [show l.foldl mergeOne [] = mergeAll [] l from rfl, ih hl]
    exact mergeOne_of_merged_append h

theorem coveredAt_reverse (l : List Rect) (x y : Int) :
    coveredAt l.reverse x y = coveredAt l x y := by
  unfold coveredAt
  rw [List.any_reverse]

theorem coveredAt_cons {a : Rect} {l : List Rect} {x y : Int} :
    coveredAt (a :: l) x y = (a.includes x y || coveredAt l x y) := by
  simp [coveredAt]

theorem coveredAt_collapseRev {a : Rect} {l : List Rect} {x y : Int}
    (h : coveredAt (a :: l) x y = true) : coveredAt (collapseRev a l) x y = true := by
  induction l generalizing a with
  | nil => exact h
  | cons b rest ih =>
    cases htb : a.touches b with
    | true =>
      rw [collapseRev, htb, if_pos rfl]
      apply ih
      rw [coveredAt_cons] at *
      rcases Bool.or_eq_true_iff.mp h with ha | hbl
      · exact Bool.or_eq_true_iff.mpr (Or.inl (Rect.includes_absorb_right b ha))
      · rw [coveredAt_cons] at hbl
        rcases Bool.or_eq_true_iff.mp hbl with hb | hrest
        · exact Bool.or_eq_true_iff.mpr (Or.inl (Rect.includes_absorb_left a hb))
        · exact Bool.or_eq_true_iff.mpr (Or.inr hrest)
    | false =>
      rw [collapseRev, htb]
      simpa using h

theorem coveredAt_mergeOneRev {rs : List Rect} {r : Rect} {x y : Int}
    (h : coveredAt rs x y = true ∨ r.includes x y = true) :
    coveredAt (mergeOneRev rs r) x y = true := by
  match rs with
  | [] =>
    rcases h with hc | hr
    · simp [coveredAt] at hc
    · simpa [mergeOneRev, coveredAt] using hr
  | last :: rest =>
    cases htr : r.touches last with
    | true =>
      rw [mergeOneRev, htr, if_pos rfl]
      apply coveredAt_collapseRev
      rw [coveredAt_cons]
      rcases h with hc | hr
      · rw [coveredAt_cons] at hc
        rcases Bool.or_eq_true_iff.mp hc with hlast | hrest
        · exact Bool.or_eq_true_iff.mpr (Or.inl (Rect.includes_absorb_left r hlast))
        · exact Bool.or_eq_true_iff.mpr (Or.inr hrest)
      · exact Bool.or_eq_true_iff.mpr (Or.inl (Rect.includes_absorb_right last hr))
    | false =>
      cases hany : (last :: rest).any (fun e => e.contains r) with
      | true =>
        rw [mergeOneRev, htr]
        simp only [Bool.false_eq_true, if_false, hany, if_pos rfl]
        rcases h with hc | hr
        · exact hc
        · obtain ⟨e, he, hcont⟩ := List.any_eq_true.mp hany
          exact List.any_eq_true.mpr ⟨e, he, Rect.includes_of_contains hcont hr⟩
      | false =>
        rw [mergeOneRev, htr]
        simp only [Bool.false_eq_true, if_false, hany]
        rw [coveredAt_cons]
        rcases h with hc | hr
        · exact Bool.or_eq_true_iff.mpr (Or.inr hc)
        · exact Bool.or_eq_true_iff.mpr (Or.inl hr)

theorem coveredAt_mergeOne {rs : List Rect} {r : Rect} {x y : Int}
    (h : coveredAt rs x y = true ∨ r.includes x y = true) :
    coveredAt (mergeOne rs r) x y = true := by
  rw [mergeOne, coveredAt_reverse]
  apply coveredAt_mergeOneRev
  rwa [coveredAt_reverse]

theorem coveredAt_mergeAll {rs xs : List Rect} {x y : Int}
    (h : coveredAt rs x y = true ∨ coveredAt xs x y = true) :
    coveredAt (mergeAll rs xs) x y = true := by
  induction xs generalizing rs with
  | nil =>
    rcases h with hc | hx
    · exact hc
    · simp [coveredAt] at hx
  | cons a rest ih =>
    rw [mergeAll, List.foldl_cons]
    apply ih
    rcases h with hc | hx
    · exact Or.inl (coveredAt_mergeOne (Or.inl hc))
    · rw [coveredAt_cons] at hx
      rcases Bool.or_eq_true_iff.mp hx with ha | hr
      · exact Or.inl (coveredAt_mergeOne (Or.inr ha))
      · exact Or.inr hr

/-!
Lemmas about the widget-tree bookkeeping and the dispatcher.
-/

theorem forestIds_drop_subset (n : Nat) (f : VForest σ ε ρ) :
    forestIds (forestDrop n f) ⊆ forestIds f := by
  match n, f with
  | 0, f =>
    simp [forestDrop]
  | n + 1, .nil =>
    simp [forestDrop]
  | n + 1, .cons c rest =>
    have h := forestIds_drop_subset n rest
    simp only [forestDrop, forestIds]
    exact h.trans (List.subset_append_right _ _)

theorem forestGet_ids_subset {f : VForest σ ε ρ} {b : Nat} {cb : VNode σ ε ρ}
    (h : forestGet f b = some cb) : vnodeIds cb ⊆ forestIds f := by
  match f, b with
  | .nil, b =>
    simp [forestGet] at h
  | .cons c rest, 0 =>
    simp only [forestGet, Option.some.injEq] at h
    subst h
    simp only [forestIds]
    exact List.subset_append_left _ _
  | .cons c rest, b + 1 =>
    simp only [forestGet] at h
    simp only [forestIds]
    exact (forestGet_ids_subset h).trans (List.subset_append_right _ _)

/-- With pairwise-distinct identifiers, an identifier in the subtree of the
child at index b is absent from the subtrees of the children at indices a
and above, whenever b < a. -/
theorem nodup_get_drop_disjoint {f : VForest σ ε ρ} (hnd : (forestIds f).Nodup)
    {b a : Nat} (hba : b < a) {cb : VNode σ ε ρ} (hget : forestGet f b = some cb) :
    ∀ j ∈ vnodeIds cb, j ∉ forestIds (forestDrop a f) := by
  match f, b, a with
  | .nil, b, a =>
    simp [forestGet] at hget
  | .cons c rest, b, 0 =>
    exact absurd hba (Nat.not_lt_zero b)
  | .cons c rest, 0, a + 1 =>
    simp only [forestGet, Option.some.injEq] at hget
    subst hget
    intro j hj hjd
    simp only [forestIds] at hnd
    have hdisj := (List.nodup_append.mp hnd).2.2
    exact hdisj hj (forestIds_drop_subset a rest hjd)
  | .cons c rest, b + 1, a + 1 =>
    simp only [forestGet] at hget
    simp only [forestIds] at hnd
    exact nodup_get_drop_disjoint (List.nodup_append.mp hnd).2.1
      (Nat.lt_of_succ_lt_succ hba) hget

theorem runHandler_trace (i : Nat) (h : σ → ε → σ × Bool × List ε × List ρ)
    (e : ε) (st : DState σ ε ρ) :
    ((runHandler i h e st).2.2).trace = st.trace ++ [(i, e)] := rfl

/-- The retain pass offers every child-bus event, in order, to the node's
own handler: its trace delta is exactly the bus paired with the node id. -/
theorem busFilter_trace (i : Nat) (h : σ → ε → σ × Bool × List ε × List ρ)
    (l : List ε) (st : DState σ ε ρ) :
    ((busFilter i h l st).2.2).trace = st.trace ++ l.map (fun e => (i, e)) := by
  induction l generalizing st with
  | nil => simp [busFilter]
  | cons e rest ih =>
    simp only [busFilter]
    rw [ih, runHandler_trace]
    simp

/-- The retain pass only removes events: the kept events form a sublist of
the child bus, in order. -/
theorem busFilter_kept_sublist (i : Nat) (h : σ → ε → σ × Bool × List ε × List ρ)
    (l : List ε) (st : DState σ ε ρ) :
    ((busFilter i h l st).1).Sublist l := by
  induction l generalizing st with
  | nil => simp [busFilter]
  | cons e rest ih =>
    simp only [busFilter]
    cases hb : (runHandler i h e st).1 with
    | true =>
      simp only [if_pos rfl]
      exact (ih _).cons e
    | false =>
      simp only [Bool.false_eq_true, if_false]
      exact (ih _).cons₂ e

mutual
/-- Dispatch only appends to the trace, and only invokes handlers of nodes
inside the dispatched subtree. -/
theorem handle_event_trace (v : VNode σ ε ρ) (evt : ε) (pb : List ε)
    (st : DState σ ε ρ) :
    ∃ d, ((handle_event v evt pb st).2.2).trace = st.trace ++ d ∧
      ∀ p ∈ d, (p : Nat × ε).1 ∈ vnodeIds v := by
  match v with
  | .mk i rect sk h bg rr cs =>
    match cs with
    | .nil =>
      refine ⟨[(i, evt)], ?_, ?_⟩
      · simp [handle_event, runHandler_trace]
      · intro p hp
        simp only [List.mem_singleton] at hp
        subst hp
        simp [vnodeIds]
    | .cons c rest =>
      cases hsk : sk evt with
      | true =>
        refine ⟨[], ?_, ?_⟩
        · simp [handle_event, hsk]
        · simp
      | false =>
        obtain ⟨d1, h1, hb1⟩ := dispatchChildren_trace (.cons c rest) evt st
        have hbus := busFilter_trace i h
          ((dispatchChildren (.cons c rest) evt st).2.1)
          ((dispatchChildren (.cons c rest) evt st).2.2)
        cases hcap : ((dispatchChildren (.cons c rest) evt st).1).isSome with
        | true =>
          refine ⟨d1 ++ ((dispatchChildren (.cons c rest) evt st).2.1).map
            (fun e => (i, e)), ?_, ?_⟩
          · simp only [handle_event, hsk, Bool.false_eq_true, if_false, hcap,
              eq_self_iff_true, if_true]
            rw [hbus, h1]
            simp
          · intro p hp
            rcases List.mem_append.mp hp with hp1 | hp2
            · have := hb1 p hp1
              simp only [vnodeIds]
              exact List.mem_cons_of_mem i
                (forestIds_drop_subset _ _ this)
            · obtain ⟨e, _, hpe⟩ := List.mem_map.mp hp2
              subst hpe
              simp [vnodeIds]
        | false =>
          refine ⟨d1 ++ ((dispatchChildren (.cons c rest) evt st).2.1).map
            (fun e => (i, e)) ++ [(i, evt)], ?_, ?_⟩
          · simp only [handle_event, hsk, Bool.false_eq_true, if_false, hcap]
            rw [runHandler_trace, hbus, h1]
            simp
          · intro p hp
            rcases List.mem_append.mp hp with hp12 | hp3
            · rcases List.mem_append.mp hp12 with hp1 | hp2
              · have := hb1 p hp1
                simp only [vnodeIds]
                exact List.mem_cons_of_mem i (forestIds_drop_subset _ _ this)
              · obtain ⟨e, _, hpe⟩ := List.mem_map.mp hp2
                subst hpe
                simp [vnodeIds]
            · simp only [List.mem_singleton] at hp3
              subst hp3
              simp [vnodeIds]

/-- The child loop only appends to the trace, and only invokes handlers of
the children it visited: those at indices at or above the capturing index
(all children when none captured). -/
theorem dispatchChildren_trace (f : VForest σ ε ρ) (evt : ε) (st : DState σ ε ρ) :
    ∃ d, ((dispatchChildren f evt st).2.2).trace = st.trace ++ d ∧
      ∀ p ∈ d, (p : Nat × ε).1 ∈
        forestIds (forestDrop (((dispatchChildren f evt st).1).getD 0) f) := by
  match f with
  | .nil =>
    refine ⟨[], by simp [dispatchChildren], by simp⟩
  | .cons c rest =>
    obtain ⟨d1, h1, hb1⟩ := dispatchChildren_trace rest evt st
    cases hr : (dispatchChildren rest evt st).1 with
    | some j =>
      refine ⟨d1, ?_, ?_⟩
      · simp only [dispatchChildren, hr]
        exact h1
      · intro p hp
        have := hb1 p hp
        rw [hr] at this
        simp only [dispatchChildren, hr, Option.getD_some]
        simpa [forestDrop] using this
    | none =>
      obtain ⟨d2, h2, hb2⟩ := handle_event_trace c evt
        ((dispatchChildren rest evt st).2.1) ((dispatchChildren rest evt st).2.2)
      have hball : ∀ p ∈ d1 ++ d2, (p : Nat × ε).1 ∈ forestIds (.cons c rest) := by
        intro p hp
        rcases List.mem_append.mp hp with hp1 | hp2
        · have := hb1 p hp1
          rw [hr] at this
          simp only [Option.getD_none, forestDrop] at this
          simp only [forestIds]
          exact List.mem_append.mpr (Or.inr this)
        · have := hb2 p hp2
          simp only [forestIds]
          exact List.mem_append.mpr (Or.inl this)
      cases hc : (handle_event c evt ((dispatchChildren rest evt st).2.1)
          ((dispatchChildren rest evt st).2.2)).1 with
      | true =>
        refine ⟨d1 ++ d2, ?_, ?_⟩
        · simp only [dispatchChildren, hr, hc, eq_self_iff_true, if_true]
          rw [h2, h1]
          simp
        · intro p hp
          simp only [dispatchChildren, hr, hc, eq_self_iff_true, if_true,
            Option.getD_some, forestDrop]
          exact hball p hp
      | false =>
        refine ⟨d1 ++ d2, ?_, ?_⟩
        · simp only [dispatchChildren, hr, hc, Bool.false_eq_true, if_false]
          rw [h2, h1]
          simp
        · intro p hp
          simp only [dispatchChildren, hr, hc, Bool.false_eq_true, if_false,
            Option.getD_none, forestDrop]
          exact hball p hp
end

/-!
Lemmas about the render engine's candidate loop and the queue drain.
-/

/-- Closed form of the candidate loop: the processed candidates are the
prefix up to and including the first one whose narrowed rectangle is the
whole node rectangle; the paint routine is invoked once per processed
candidate with the candidate itself, the narrowed rectangles are the
produced ones, and the updating map is purged once per processed
candidate. -/
theorem renderLoop_spec (wOk : Nat → Bool) (w : Bool) (i : Nat) (vrect : Rect)
    (rrHook : Rect → Rect) (cand : List Rect) (u : List (Nat × Rect)) :
    renderLoop wOk w i vrect rrHook cand u =
      (purgeAll wOk w rrHook (takeThrough (fun c => decide (vrect = rrHook c)) cand) u,
       (takeThrough (fun c => decide (vrect = rrHook c)) cand).map (fun c => (i, c)),
       (takeThrough (fun c => decide (vrect = rrHook c)) cand).map rrHook) := by
  induction cand generalizing u with
  | nil => simp [renderLoop, takeThrough, purgeAll]
  | cons a rest ih =>
    by_cases hv : vrect = rrHook a
    · simp [renderLoop, takeThrough, purgeAll, hv]
    · simp [renderLoop, takeThrough, purgeAll, hv, ih]

theorem assocGet_entryPush (ids : List (Nat × List Rect)) (i : Nat) (r : Rect)
    (n : Nat) :
    assocGet (entryPush ids i r) n =
      if n = i then assocGet ids n ++ [r] else assocGet ids n := by
  induction ids with
  | nil =>
    by_cases h : n = i <;> simp [entryPush, assocGet, h]
  | cons p rest ih =>
    obtain ⟨j, v⟩ := p
    by_cases hij : i = j
    · subst hij
      by_cases hni : n = i <;> simp [entryPush, assocGet, hni]
    · by_cases hnj : n = j
      · subst hnj
        have hni : ¬n = i := fun hc => hij hc.symm
        simp [entryPush, if_neg hij, assocGet, hni]
      · simp [entryPush, hij, assocGet, hnj, ih]

/-- The per-id map the drain rebuilds: the rectangles pushed for an id are
exactly the rectangles of the traversed pairs carrying that id, in
traversal order. -/
theorem buildMaps_ids (l : List (Option Nat × Rect)) (ids0 : List (Nat × List Rect))
    (bgs0 : List Rect) (n : Nat) :
    assocGet (buildMaps l ids0 bgs0).1 n =
      assocGet ids0 n ++ l.filterMap (fun p => if p.1 = some n then some p.2 else none) := by
  induction l generalizing ids0 bgs0 with
  | nil => simp [buildMaps]
  | cons p rest ih =>
    obtain ⟨oi, r⟩ := p
    match oi with
    | some i =>
      rw [show buildMaps ((some i, r) :: rest) ids0 bgs0 =
        buildMaps rest (entryPush ids0 i r) bgs0 from rfl]
      rw [ih, assocGet_entryPush]
      by_cases hni : n = i
      · subst hni
        simp
      · have : (some i = some n) = False := by
          simp only [Option.some.injEq, eq_iff_iff, iff_false]
          intro hc
          exact hni hc.symm
        simp [hni, this]
    | none =>
      rw [show buildMaps ((none, r) :: rest) ids0 bgs0 =
        buildMaps rest ids0 (bgs0 ++ [r]) from rfl]
      rw [ih]
      simp

/-- The background list the drain rebuilds: the rectangles of the traversed
pairs carrying no id, in traversal order. -/
theorem buildMaps_bgs (l : List (Option Nat × Rect)) (ids0 : List (Nat × List Rect))
    (bgs0 : List Rect) :
    (buildMaps l ids0 bgs0).2 = bgs0 ++ l.filterMap
      (fun p => match p.1 with
        | none => some p.2
        | some _ => none) := by
  induction l generalizing ids0 bgs0 with
  | nil => simp [buildMaps]
  | cons p rest ih =>
    obtain ⟨oi, r⟩ := p
    match oi with
    | some i =>
      rw [show buildMaps ((some i, r) :: rest) ids0 bgs0 =
        buildMaps rest (entryPush ids0 i r) bgs0 from rfl]
      rw [ih]
      simp
    | none =>
      rw [show buildMaps ((none, r) :: rest) ids0 bgs0 =
        buildMaps rest ids0 (bgs0 ++ [r]) from rfl]
      rw [ih]
      simp

/-- Closed form of the hardware-refresh loop: one call per rectangle with
the group's mode, the successful calls appended to the updating map in
order, the failed ones dropped. -/
theorem issueUpdates_spec {δ μ : Type} (upd : δ → Rect → μ → δ × Option Nat)
    (mode : μ) (rs : List Rect) (d : δ) (u : List (Nat × Rect)) :
    issueUpdates upd mode rs d u =
      (driveAll upd mode rs d, u ++ okPairs upd mode rs d,
        rs.map (fun r => (r, mode))) := by
  induction rs generalizing d u with
  | nil => simp [issueUpdates, driveAll, okPairs]
  | cons r rest ih =>
    simp only [issueUpdates, driveAll, okPairs]
    cases h2 : (upd d r mode).2 with
    | some tok => simp [h2, ih]
    | none => simp [h2, ih]

/-!
The claims.
-/

/-- C1 (amended): for every node **with at least one child** whose skip
policy reports true for the event, dispatch returns false immediately and
the parent bus and the entire dispatch state are unchanged: no handler in
the node's subtree runs, nothing is traced, and no render request is
queued as a side effect of the event.  (The claim's extension to childless
nodes fails: see the counterexample.) -/
theorem c1_skip_short_circuit (i : Nat) (rect : Rect) (sk : ε → Bool)
    (h : σ → ε → σ × Bool × List ε × List ρ) (bg : Bool) (rr : Rect → Rect)
    (c : VNode σ ε ρ) (f : VForest σ ε ρ) (evt : ε) (pb : List ε)
    (st : DState σ ε ρ) (hsk : sk evt = true) :
    handle_event (.mk i rect sk h bg rr (.cons c f)) evt pb st = (false, pb, st) := by
  simp [handle_event, hsk]

/-- Witness for C1 (amended): a concrete two-node tree whose root must skip
the event; dispatch returns false and changes nothing. -/
theorem c1_skip_short_circuit_witness :
    handle_event ((.mk 3 ⟨0, 0, 4, 4⟩ (fun _ => true)
        (fun s _ => (s, true, [], [7]))
        false (fun r => r)
        (.cons (.mk 4 ⟨0, 0, 4, 4⟩ (fun _ => false) (fun s _ => (s, true, [], [8]))
          false (fun r => r) .nil) .nil)) : VNode Unit Nat Nat) 5 [] ⟨(), [], []⟩ =
      (false, [], ⟨(), [], []⟩) :=
  c1_skip_short_circuit 3 ⟨0, 0, 4, 4⟩ (fun _ => true) (fun s _ => (s, true, [], [7]))
    false (fun r => r) _ _ 5 [] ⟨(), [], []⟩ rfl

/-- C1 counterexample: a childless node whose skip policy reports true for
the event still has its own handler invoked (the source consults
might_skip only on the branch for nodes with children): dispatch returns
the handler verdict true, the invocation is traced, and the handler's
render request is queued — not the claimed false with an untouched
subtree. -/
theorem c1_skip_ignored_on_leaf_cex :
    handle_event ((.mk 9 ⟨0, 0, 1, 1⟩ (fun _ => true)
        (fun s _ => (s, true, [], [42])) false (fun r => r) .nil) : VNode Unit Nat Nat)
      0 [] ⟨(), [], []⟩ = (true, [], ⟨(), [42], [(9, 0)]⟩) ∧
    (true, ([] : List Nat), (⟨(), [42], [(9, 0)]⟩ : DState Unit Nat Nat)) ≠
      (false, [], ⟨(), [], []⟩) := by
  constructor
  · rfl
  · decide

/-- C2 (amended): running the merge step again over an already-merged list,
starting from an empty running list and with no new input, yields the same
list; in every finalized list no two **adjacent** entries touch, and no
entry contains a **later** entry.  (The unrestricted claims fail: see the
counterexample.) -/
theorem c2_merge_idempotent (xs : List Rect) :
    mergeAll [] (mergeAll [] xs) = mergeAll [] xs ∧
    (mergeAll [] xs).Chain' (fun a b => a.touches b = false) ∧
    (mergeAll [] xs).Pairwise (fun a b => a.contains b = false) := by
  have hm : Merged (mergeAll [] xs) := merged_mergeAll xs merged_nil
  exact ⟨mergeAll_merged_id hm, hm.1, hm.2⟩

/-- C2 counterexample: the merge step only compares a produced rectangle
with the current last entry for touching, so a finalized list can hold two
touching non-adjacent entries (first input list: entries one and three
touch edge-to-edge), and an entry contained in an earlier-merged one
(second input list: the third entry strictly contains the first). -/
theorem c2_finalized_list_cex :
    mergeAll [] [⟨0, 0, 10, 10⟩, ⟨100, 0, 110, 10⟩, ⟨10, 0, 20, 10⟩] =
      [⟨0, 0, 10, 10⟩, ⟨100, 0, 110, 10⟩, ⟨10, 0, 20, 10⟩] ∧
    Rect.touches ⟨0, 0, 10, 10⟩ ⟨10, 0, 20, 10⟩ = true ∧
    mergeAll [] [⟨0, 0, 10, 10⟩, ⟨100, 0, 110, 10⟩, ⟨0, 0, 20, 20⟩] =
      [⟨0, 0, 10, 10⟩, ⟨100, 0, 110, 10⟩, ⟨0, 0, 20, 20⟩] ∧
    Rect.contains ⟨0, 0, 20, 20⟩ ⟨0, 0, 10, 10⟩ = true := by
  decide

/-- C4 (amended): merging never drops covered points — every point covered
by the produced rectangles is covered by the merged list — but the merged
union can strictly exceed the input union, because absorbing touching
rectangles takes their bounding box (see the counterexample). -/
theorem c4_union_superset (xs : List Rect) (x y : Int)
    (h : coveredAt xs x y = true) : coveredAt (mergeAll [] xs) x y = true :=
  coveredAt_mergeAll (Or.inr h)

/-- Witness for C4 (amended) at a concrete input list and point. -/
theorem c4_union_superset_witness :
    coveredAt [⟨0, 0, 10, 10⟩, ⟨12, 0, 20, 5⟩] 13 4 = true ∧
    coveredAt (mergeAll [] [⟨0, 0, 10, 10⟩, ⟨12, 0, 20, 5⟩]) 13 4 = true :=
  ⟨by decide, c4_union_superset [⟨0, 0, 10, 10⟩, ⟨12, 0, 20, 5⟩] 13 4 (by decide)⟩

/-- C4 counterexample: merging the two edge-adjacent rectangles of
different heights produces their bounding box, which covers the point
(15, 7) that neither produced rectangle covers: the merged union is not
equal to the pre-merge union. -/
theorem c4_union_grows_cex :
    mergeAll [] [⟨0, 0, 10, 10⟩, ⟨10, 0, 20, 5⟩] = [⟨0, 0, 20, 10⟩] ∧
    coveredAt (mergeAll [] [⟨0, 0, 10, 10⟩, ⟨10, 0, 20, 5⟩]) 15 7 = true ∧
    coveredAt [⟨0, 0, 10, 10⟩, ⟨10, 0, 20, 5⟩] 15 7 = false := by
  decide

/-- C9: three sibling leaf widgets with rectangles [0,0,10,10],
[10,0,20,10] and [25,0,35,10], each queued for a full-self repaint in one
render-queue group, produce exactly the two merged rectangles [0,0,20,10]
and [25,0,35,10]: the render engine, invoked on the root with the maps the
drain rebuilds for that group, finishes with that running list. -/
theorem c9_three_sibling_scenario :
    (render (fun _ => true)
      ((.mk 0 ⟨0, 0, 35, 10⟩ (fun _ => false) (fun s _ => (s, false, [], []))
         false (fun _ => ⟨0, 0, 35, 10⟩)
         (.cons (.mk 1 ⟨0, 0, 10, 10⟩ (fun _ => false) (fun s _ => (s, false, [], []))
            false (fun _ => ⟨0, 0, 10, 10⟩) .nil)
          (.cons (.mk 2 ⟨10, 0, 20, 10⟩ (fun _ => false) (fun s _ => (s, false, [], []))
             false (fun _ => ⟨10, 0, 20, 10⟩) .nil)
           (.cons (.mk 3 ⟨25, 0, 35, 10⟩ (fun _ => false) (fun s _ => (s, false, [], []))
              false (fun _ => ⟨25, 0, 35, 10⟩) .nil) .nil)))) : VNode Unit Unit Unit)
      false
      (assocGet (buildMaps ([((some 1 : Option Nat), (⟨0, 0, 10, 10⟩ : Rect)),
        (some 2, ⟨10, 0, 20, 10⟩), (some 3, ⟨25, 0, 35, 10⟩)].reverse) [] []).1)
      ⟨[], (buildMaps ([((some 1 : Option Nat), (⟨0, 0, 10, 10⟩ : Rect)),
        (some 2, ⟨10, 0, 20, 10⟩), (some 3, ⟨25, 0, 35, 10⟩)].reverse) [] []).2,
        [], []⟩).rects =
      [⟨0, 0, 20, 10⟩, ⟨25, 0, 35, 10⟩] := by
  decide

/-- C3 (amended): when the wait policy is set and a directly-rendered leaf
has a single queued candidate, an entry of the updating map survives the
render exactly when it does not overlap the narrowed candidate **or its
wait returned an error**; in particular entries overlapping the candidate
whose wait succeeds are removed, entries not overlapping remain, and —
against the claim — entries whose wait errors also remain. -/
theorem c3_wait_purge (i : Nat) (rect : Rect) (sk : ε → Bool)
    (h : σ → ε → σ × Bool × List ε × List ρ) (bg : Bool) (rr : Rect → Rect)
    (wOk : Nat → Bool) (ids : Nat → List Rect) (u : List (Nat × Rect))
    (c : Rect) (hids : ids i = [c]) (tok : Nat) (r' : Rect) :
    ((tok, r') ∈ (render wOk (.mk i rect sk h bg rr .nil) true ids
        ⟨[], [], u, []⟩).updating) ↔
      ((tok, r') ∈ u ∧ ((rr c).overlaps r' = false ∨ wOk tok = false)) := by
  have htt : takeThrough (fun cc => decide (rect = rr cc)) [c] = [c] := by
    cases hp : decide (rect = rr c) <;> simp [takeThrough, hp]
  simp only [render, VForest.isNil, Bool.true_or, if_true, hids, List.filterMap_nil,
    List.append_nil, renderLoop_spec, htt, renderChildren]
  simp only [purgeAll, if_true]
  rw [List.mem_filter]
  simp [Bool.or_eq_true, Bool.not_eq_true']

/-- Witness for C3 (amended): a concrete leaf with one candidate, one
overlapping entry whose wait succeeds (removed) and one whose membership
is characterized by the amended condition. -/
theorem c3_wait_purge_witness :
    ((6, (⟨20, 20, 30, 30⟩ : Rect)) ∈ (render (fun t => t == 5)
      ((.mk 1 ⟨0, 0, 10, 10⟩ (fun _ => false) (fun s _ => (s, false, [], []))
        false (fun rc => rc) .nil) : VNode Unit Unit Unit) true
      (fun n => if n = 1 then [⟨0, 0, 10, 10⟩] else [])
      ⟨[], [], [(5, ⟨2, 2, 8, 8⟩), (6, ⟨20, 20, 30, 30⟩)], []⟩).updating) ↔
      ((6, (⟨20, 20, 30, 30⟩ : Rect)) ∈
          [((5 : Nat), (⟨2, 2, 8, 8⟩ : Rect)), (6, ⟨20, 20, 30, 30⟩)] ∧
        (Rect.overlaps ((fun rc => rc) (⟨0, 0, 10, 10⟩ : Rect)) ⟨20, 20, 30, 30⟩ = false ∨
          ((fun t => t == 5) (6 : Nat)) = false)) :=
  c3_wait_purge 1 ⟨0, 0, 10, 10⟩ (fun _ => false) (fun s _ => (s, false, [], []))
    false (fun rc => rc) (fun t => t == 5)
    (fun n => if n = 1 then [⟨0, 0, 10, 10⟩] else [])
    [(5, ⟨2, 2, 8, 8⟩), (6, ⟨20, 20, 30, 30⟩)] ⟨0, 0, 10, 10⟩ rfl 6 ⟨20, 20, 30, 30⟩

/-- C3 counterexample: an updating entry that overlaps the candidate and
whose wait returns an error is **kept** by the purge (the source retains
an entry when fb.wait(tok) is Err), while the claim requires it to be
removed; with a succeeding wait the same entry is removed, showing the
divergence is exactly the error path. -/
theorem c3_wait_error_kept_cex :
    (render (fun _ => false) ((.mk 1 ⟨0, 0, 10, 10⟩ (fun _ => false)
        (fun s _ => (s, false, [], [])) false (fun _ => ⟨0, 0, 10, 10⟩) .nil) :
      VNode Unit Unit Unit) true
      (fun n => if n = 1 then [⟨0, 0, 10, 10⟩] else [])
      ⟨[], [], [(5, ⟨2, 2, 8, 8⟩)], []⟩).updating = [(5, ⟨2, 2, 8, 8⟩)] ∧
    Rect.overlaps ⟨0, 0, 10, 10⟩ ⟨2, 2, 8, 8⟩ = true ∧
    (render (fun _ => true) ((.mk 1 ⟨0, 0, 10, 10⟩ (fun _ => false)
        (fun s _ => (s, false, [], [])) false (fun _ => ⟨0, 0, 10, 10⟩) .nil) :
      VNode Unit Unit Unit) true
      (fun n => if n = 1 then [⟨0, 0, 10, 10⟩] else [])
      ⟨[], [], [(5, ⟨2, 2, 8, 8⟩)], []⟩).updating = [] := by
  decide

/-- C8 (amended): for a directly-rendered node, the processed candidates
are the queued and intersected rectangles up to and including the first
whose narrowed rectangle equals the whole node rectangle; each candidate
is narrowed through the render_rect hook, the paint routine is invoked
with the **original candidate** rectangle (not the narrowed one), the
**narrowed** rectangle is recorded as produced and merged into the running
list, and the updating map is purged once per processed candidate. -/
theorem c8_candidate_processing (i : Nat) (rect : Rect) (sk : ε → Bool)
    (h : σ → ε → σ × Bool × List ε × List ρ) (bg : Bool) (rr : Rect → Rect)
    (cs : VForest σ ε ρ) (wOk : Nat → Bool) (w : Bool) (ids : Nat → List Rect)
    (st : RState) (hd : (VForest.isNil cs || bg) = true) :
    render wOk (.mk i rect sk h bg rr cs) w ids st =
      renderChildren wOk cs w ids
        ⟨mergeAll st.rects ((takeThrough (fun c => decide (rect = rr c))
            (ids i ++ st.rects.filterMap (fun r => r.intersection rect) ++
              st.bgs.filterMap (fun r => r.intersection rect))).map rr),
          st.bgs,
          purgeAll wOk w rr (takeThrough (fun c => decide (rect = rr c))
            (ids i ++ st.rects.filterMap (fun r => r.intersection rect) ++
              st.bgs.filterMap (fun r => r.intersection rect))) st.updating,
          st.paints ++ (takeThrough (fun c => decide (rect = rr c))
            (ids i ++ st.rects.filterMap (fun r => r.intersection rect) ++
              st.bgs.filterMap (fun r => r.intersection rect))).map
            (fun c => (i, c))⟩ := by
  simp only [render, hd, if_true, renderLoop_spec]
  rfl

/-- Witness for C8 (amended): a concrete leaf with a non-identity
render_rect hook, rendered from an empty state with one queued candidate. -/
theorem c8_candidate_processing_witness :
    render (fun _ => true) ((.mk 7 ⟨0, 0, 10, 10⟩ (fun _ => false)
        (fun s _ => (s, false, [], [])) false (fun _ => ⟨0, 0, 5, 5⟩) .nil) :
      VNode Unit Unit Unit) false
      (fun n => if n = 7 then [⟨0, 0, 10, 10⟩] else []) ⟨[], [], [], []⟩ =
      renderChildren (fun _ => true) (VForest.nil : VForest Unit Unit Unit) false
        (fun n => if n = 7 then [⟨0, 0, 10, 10⟩] else [])
        ⟨mergeAll [] ((takeThrough
            (fun c => decide ((⟨0, 0, 10, 10⟩ : Rect) = (fun _ => (⟨0, 0, 5, 5⟩ : Rect)) c))
            ((fun n => if n = 7 then [(⟨0, 0, 10, 10⟩ : Rect)] else []) 7 ++
              List.filterMap (fun (r : Rect) => r.intersection ⟨0, 0, 10, 10⟩) ([] : List Rect) ++
              List.filterMap (fun (r : Rect) => r.intersection ⟨0, 0, 10, 10⟩) ([] : List Rect))).map
            (fun _ => ⟨0, 0, 5, 5⟩)),
          [],
          purgeAll (fun _ => true) false (fun _ => ⟨0, 0, 5, 5⟩)
            (takeThrough
              (fun c => decide ((⟨0, 0, 10, 10⟩ : Rect) = (fun _ => (⟨0, 0, 5, 5⟩ : Rect)) c))
              ((fun n => if n = 7 then [(⟨0, 0, 10, 10⟩ : Rect)] else []) 7 ++
                List.filterMap (fun (r : Rect) => r.intersection ⟨0, 0, 10, 10⟩) ([] : List Rect) ++
                List.filterMap (fun (r : Rect) => r.intersection ⟨0, 0, 10, 10⟩) ([] : List Rect))) [],
          [] ++ (takeThrough
            (fun c => decide ((⟨0, 0, 10, 10⟩ : Rect) = (fun _ => (⟨0, 0, 5, 5⟩ : Rect)) c))
            ((fun n => if n = 7 then [(⟨0, 0, 10, 10⟩ : Rect)] else []) 7 ++
              List.filterMap (fun (r : Rect) => r.intersection ⟨0, 0, 10, 10⟩) ([] : List Rect) ++
              List.filterMap (fun (r : Rect) => r.intersection ⟨0, 0, 10, 10⟩) ([] : List Rect))).map
            (fun c => (7, c))⟩ :=
  c8_candidate_processing 7 ⟨0, 0, 10, 10⟩ (fun _ => false)
    (fun s _ => (s, false, [], [])) false (fun _ => ⟨0, 0, 5, 5⟩) .nil
    (fun _ => true) false (fun n => if n = 7 then [⟨0, 0, 10, 10⟩] else [])
    ⟨[], [], [], []⟩ rfl

/-- C8 counterexample: a leaf whose render_rect hook narrows the queued
candidate [0,0,10,10] to [0,0,5,5] has its paint routine invoked with the
**original** candidate [0,0,10,10] while [0,0,5,5] is what is recorded as
produced and merged — the claim that paint is invoked for exactly the
narrowed rectangle is false. -/
theorem c8_paint_arg_cex :
    (render (fun _ => true) ((.mk 7 ⟨0, 0, 10, 10⟩ (fun _ => false)
        (fun s _ => (s, false, [], [])) false (fun _ => ⟨0, 0, 5, 5⟩) .nil) :
      VNode Unit Unit Unit) false
      (fun n => if n = 7 then [⟨0, 0, 10, 10⟩] else []) ⟨[], [], [], []⟩).paints =
      [(7, ⟨0, 0, 10, 10⟩)] ∧
    (render (fun _ => true) ((.mk 7 ⟨0, 0, 10, 10⟩ (fun _ => false)
        (fun s _ => (s, false, [], [])) false (fun _ => ⟨0, 0, 5, 5⟩) .nil) :
      VNode Unit Unit Unit) false
      (fun n => if n = 7 then [⟨0, 0, 10, 10⟩] else []) ⟨[], [], [], []⟩).rects =
      [⟨0, 0, 5, 5⟩] ∧
    (⟨0, 0, 10, 10⟩ : Rect) ≠ ⟨0, 0, 5, 5⟩ := by
  decide

/-- C7: draining one (mode, wait) group rebuilds the per-id and background
maps from the group's entries in reverse insertion order, invokes the
render engine exactly once against the tree root with the group's wait
flag, and then issues exactly one driver update per final merged rectangle
with the group's mode; each successful call registers its token with its
rectangle in the updating map, each failed call is dropped without
registering anything. -/
theorem c7_render_queue_drain {δ μ : Type} (upd : δ → Rect → μ → δ × Option Nat)
    (wOk : Nat → Bool) (root : VNode σ ε ρ) (mode : μ) (w : Bool)
    (pairs : List (Option Nat × Rect)) (u : List (Nat × Rect)) (d : δ) :
    processGroup upd wOk root mode w pairs u d =
      (driveAll upd mode
        (render wOk root w
          (fun n => pairs.reverse.filterMap
            (fun p => if p.1 = some n then some p.2 else none))
          ⟨[], pairs.reverse.filterMap
            (fun p => match p.1 with
              | none => some p.2
              | some _ => none), u, []⟩).rects d,
       (render wOk root w
          (fun n => pairs.reverse.filterMap
            (fun p => if p.1 = some n then some p.2 else none))
          ⟨[], pairs.reverse.filterMap
            (fun p => match p.1 with
              | none => some p.2
              | some _ => none), u, []⟩).updating ++
         okPairs upd mode
           (render wOk root w
             (fun n => pairs.reverse.filterMap
               (fun p => if p.1 = some n then some p.2 else none))
             ⟨[], pairs.reverse.filterMap
               (fun p => match p.1 with
                 | none => some p.2
                 | some _ => none), u, []⟩).rects d,
       ((render wOk root w
          (fun n => pairs.reverse.filterMap
            (fun p => if p.1 = some n then some p.2 else none))
          ⟨[], pairs.reverse.filterMap
            (fun p => match p.1 with
              | none => some p.2
              | some _ => none), u, []⟩).rects).map (fun r => (r, mode))) := by
  have hids : assocGet (buildMaps pairs.reverse [] []).1 =
      fun n => pairs.reverse.filterMap
        (fun p => if p.1 = some n then some p.2 else none) := by
    funext n
    rw [buildMaps_ids]
    simp [assocGet]
  have hbgs : (buildMaps pairs.reverse [] []).2 =
      pairs.reverse.filterMap
        (fun p => match p.1 with
          | none => some p.2
          | some _ => none) := by
    rw [buildMaps_bgs]
    simp
  simp only [processGroup]
  rw [hids, hbgs, issueUpdates_spec]

/-- C5: dispatch walks the children from the highest index to the lowest
and stops at the first capture: when the child loop captures at index a,
no handler belonging to the subtree of a sibling at any index b < a is
invoked at any point of the dispatch of the parent for any event (under
pairwise-distinct widget identifiers). -/
theorem c5_capture_exclusivity (i : Nat) (rect : Rect) (sk : ε → Bool)
    (h : σ → ε → σ × Bool × List ε × List ρ) (bg : Bool) (rr : Rect → Rect)
    (f : VForest σ ε ρ) (evt : ε) (pb : List ε) (st : DState σ ε ρ)
    (hsk : sk evt = false)
    (hnodup : (vnodeIds (.mk i rect sk h bg rr f)).Nodup)
    (a : Nat) (hcap : (dispatchChildren f evt st).1 = some a)
    (b : Nat) (hb : b < a) (cb : VNode σ ε ρ) (hcb : forestGet f b = some cb)
    (j : Nat) (hj : j ∈ vnodeIds cb) (e : ε) :
    (j, e) ∉ (((handle_event (.mk i rect sk h bg rr f) evt pb st).2.2).trace.drop
      st.trace.length) := by
  cases f with
  | nil =>
    rw [forestGet] at hcb
    exact absurd hcb (by simp)
  | cons c0 f0 =>
    obtain ⟨d1, h1, hb1⟩ := dispatchChildren_trace (.cons c0 f0) evt st
    have hbus := busFilter_trace i h ((dispatchChildren (.cons c0 f0) evt st).2.1)
      ((dispatchChildren (.cons c0 f0) evt st).2.2)
    have hcapS : ((dispatchChildren (.cons c0 f0) evt st).1).isSome = true := by
      rw [hcap]
      rfl
    have htr : ((handle_event (.mk i rect sk h bg rr (.cons c0 f0)) evt pb st).2.2).trace
        = st.trace ++ (d1 ++ ((dispatchChildren (.cons c0 f0) evt st).2.1).map
          (fun e0 => (i, e0))) := by
      simp only [handle_event, hsk, Bool.false_eq_true, if_false, hcapS,
        eq_self_iff_true, if_true]
      rw [hbus, h1]
      simp
    rw [htr, List.drop_left]
    intro hmem
    simp only [vnodeIds] at hnodup
    have hnI : i ∉ forestIds (.cons c0 f0) := (List.nodup_cons.mp hnodup).1
    have hnF : (forestIds (.cons c0 f0)).Nodup := (List.nodup_cons.mp hnodup).2
    rcases List.mem_append.mp hmem with h1m | h2m
    · have hbd := hb1 (j, e) h1m
      rw [hcap] at hbd
      simp only [Option.getD_some] at hbd
      exact nodup_get_drop_disjoint hnF hb hcb j hj hbd
    · obtain ⟨e0, _, heq⟩ := List.mem_map.mp h2m
      have hji : i = j := congrArg Prod.fst heq
      apply hnI
      rw [hji]
      exact forestGet_ids_subset hcb hj

/-- Witness for C5: a parent (id 5) with children at index 0 (id 6) and
index 1 (id 7); the child at index 1 captures, so no handler of the
sibling at index 0 appears in the trace. -/
theorem c5_capture_exclusivity_witness :
    ((6 : Nat), (0 : Nat)) ∉ (((handle_event ((.mk 5 ⟨0, 0, 9, 9⟩ (fun _ => false)
        (fun s _ => (s, false, [], []))
        false (fun r => r)
        (.cons (.mk 6 ⟨0, 0, 3, 3⟩ (fun _ => false) (fun s _ => (s, true, [], []))
          false (fun r => r) .nil)
         (.cons (.mk 7 ⟨3, 0, 6, 3⟩ (fun _ => false) (fun s _ => (s, true, [], []))
           false (fun r => r) .nil) .nil))) : VNode Unit Nat Unit)
      0 [] ⟨(), [], []⟩).2.2).trace.drop ([] : List (Nat × Nat)).length) :=
  c5_capture_exclusivity 5 ⟨0, 0, 9, 9⟩ (fun _ => false)
    (fun s _ => (s, false, [], []))
    false (fun r => r)
    (.cons (.mk 6 ⟨0, 0, 3, 3⟩ (fun _ => false) (fun s _ => (s, true, [], []))
      false (fun r => r) .nil)
     (.cons (.mk 7 ⟨3, 0, 6, 3⟩ (fun _ => false) (fun s _ => (s, true, [], []))
       false (fun r => r) .nil) .nil))
    0 [] ⟨(), [], []⟩ rfl (by decide) 1 rfl 0 (by decide)
    (.mk 6 ⟨0, 0, 3, 3⟩ (fun _ => false) (fun s _ => (s, true, [], []))
      false (fun r => r) .nil) rfl 6 (by decide) 0

/-- C10: when some child's recursive dispatch captures the event, the
disjunction short-circuits: dispatch returns true and the node's own
handler is never invoked with the original event — the trace entries
carrying the node's id are exactly the child-generated follow-up events of
the child bus, in order (under pairwise-distinct widget identifiers). -/
theorem c10_captured_skips_own_handler (i : Nat) (rect : Rect) (sk : ε → Bool)
    (h : σ → ε → σ × Bool × List ε × List ρ) (bg : Bool) (rr : Rect → Rect)
    (f : VForest σ ε ρ) (evt : ε) (pb : List ε) (st : DState σ ε ρ)
    (hsk : sk evt = false)
    (hnodup : (vnodeIds (.mk i rect sk h bg rr f)).Nodup)
    (hcap : ((dispatchChildren f evt st).1).isSome = true) :
    (handle_event (.mk i rect sk h bg rr f) evt pb st).1 = true ∧
    (((handle_event (.mk i rect sk h bg rr f) evt pb st).2.2).trace.drop
        st.trace.length).filter (fun p => p.1 == i) =
      ((dispatchChildren f evt st).2.1).map (fun e => (i, e)) := by
  cases f with
  | nil => simp [dispatchChildren] at hcap
  | cons c0 f0 =>
    obtain ⟨d1, h1, hb1⟩ := dispatchChildren_trace (.cons c0 f0) evt st
    have hbus := busFilter_trace i h ((dispatchChildren (.cons c0 f0) evt st).2.1)
      ((dispatchChildren (.cons c0 f0) evt st).2.2)
    have htr : ((handle_event (.mk i rect sk h bg rr (.cons c0 f0)) evt pb st).2.2).trace
        = st.trace ++ (d1 ++ ((dispatchChildren (.cons c0 f0) evt st).2.1).map
          (fun e0 => (i, e0))) := by
      simp only [handle_event, hsk, Bool.false_eq_true, if_false, hcap,
        eq_self_iff_true, if_true]
      rw [hbus, h1]
      simp
    simp only [vnodeIds] at hnodup
    have hnI : i ∉ forestIds (.cons c0 f0) := (List.nodup_cons.mp hnodup).1
    constructor
    · simp [handle_event, hsk, hcap]
    · rw [htr, List.drop_left, List.filter_append]
      have hd1 : d1.filter (fun p => p.1 == i) = [] := by
        rw [List.filter_eq_nil_iff]
        intro p hp
        have hbd := hb1 p hp
        have hpf : p.1 ∈ forestIds (.cons c0 f0) := forestIds_drop_subset _ _ hbd
        simp only [beq_iff_eq]
        intro hpe
        rw [hpe] at hpf
        exact hnI hpf
      have hmap : (((dispatchChildren (.cons c0 f0) evt st).2.1).map
          (fun e0 => (i, e0))).filter (fun p => p.1 == i) =
          ((dispatchChildren (.cons c0 f0) evt st).2.1).map (fun e0 => (i, e0)) := by
        rw [List.filter_eq_self]
        intro p hp
        obtain ⟨e0, _, heq⟩ := List.mem_map.mp hp
        rw [← heq]
        simp
      rw [hd1, hmap, List.nil_append]

/-- Witness for C10: a parent (id 0) whose only child (id 1) captures the
event 0 and emits the follow-up event 10; dispatch returns true and the
only trace entry with the parent id is the offered follow-up (0, 10). -/
theorem c10_captured_skips_own_handler_witness :
    (handle_event ((.mk 0 ⟨0, 0, 9, 9⟩ (fun _ => false)
        (fun s e => (s, false, if e = 10 then [20] else [], []))
        false (fun r => r)
        (.cons (.mk 1 ⟨0, 0, 3, 3⟩ (fun _ => false) (fun s _ => (s, true, [10], []))
          false (fun r => r) .nil) .nil)) : VNode Unit Nat Unit)
      0 [] ⟨(), [], []⟩).1 = true ∧
    (((handle_event ((.mk 0 ⟨0, 0, 9, 9⟩ (fun _ => false)
        (fun s e => (s, false, if e = 10 then [20] else [], []))
        false (fun r => r)
        (.cons (.mk 1 ⟨0, 0, 3, 3⟩ (fun _ => false) (fun s _ => (s, true, [10], []))
          false (fun r => r) .nil) .nil)) : VNode Unit Nat Unit)
      0 [] ⟨(), [], []⟩).2.2).trace.drop
        (⟨(), [], []⟩ : DState Unit Nat Unit).trace.length).filter
          (fun p => p.1 == 0) =
      ((dispatchChildren (.cons (.mk 1 ⟨0, 0, 3, 3⟩ (fun _ => false)
          (fun s _ => (s, true, [10], [])) false (fun r => r) .nil) .nil)
        0 (⟨(), [], []⟩ : DState Unit Nat Unit)).2.1).map (fun e => (0, e)) :=
  c10_captured_skips_own_handler 0 ⟨0, 0, 9, 9⟩ (fun _ => false)
    (fun s e => (s, false, if e = 10 then [20] else [], []))
    false (fun r => r)
    (.cons (.mk 1 ⟨0, 0, 3, 3⟩ (fun _ => false) (fun s _ => (s, true, [10], []))
      false (fun r => r) .nil) .nil)
    0 [] ⟨(), [], []⟩ rfl (by decide) rfl

/-- C6 (amended): after the child loop, every child-bus event is offered in
order to the node's own handler (the trace gains exactly those offers);
the events the handler does not consume remain on the child bus as an
order-preserving sublist; the temporary bus collects the events the
HANDLER EMITTED during this filtering pass — not the unconsumed events, as
the claim puts it — and parent_bus is then extended with the surviving
child-bus events followed by the temporary-bus events (followed, when no
child captured, by what the node's own handler emits for the original
event). -/
theorem c6_bus_plumbing (i : Nat) (rect : Rect) (sk : ε → Bool)
    (h : σ → ε → σ × Bool × List ε × List ρ) (bg : Bool) (rr : Rect → Rect)
    (c0 : VNode σ ε ρ) (f0 : VForest σ ε ρ) (evt : ε) (pb : List ε)
    (st : DState σ ε ρ) (hsk : sk evt = false) :
    ((busFilter i h ((dispatchChildren (.cons c0 f0) evt st).2.1)
        ((dispatchChildren (.cons c0 f0) evt st).2.2)).2.2).trace =
      ((dispatchChildren (.cons c0 f0) evt st).2.2).trace ++
        ((dispatchChildren (.cons c0 f0) evt st).2.1).map (fun e => (i, e)) ∧
    ((busFilter i h ((dispatchChildren (.cons c0 f0) evt st).2.1)
        ((dispatchChildren (.cons c0 f0) evt st).2.2)).1).Sublist
      ((dispatchChildren (.cons c0 f0) evt st).2.1) ∧
    (((dispatchChildren (.cons c0 f0) evt st).1).isSome = true →
      (handle_event (.mk i rect sk h bg rr (.cons c0 f0)) evt pb st).2.1 =
        pb ++ (busFilter i h ((dispatchChildren (.cons c0 f0) evt st).2.1)
            ((dispatchChildren (.cons c0 f0) evt st).2.2)).1 ++
          (busFilter i h ((dispatchChildren (.cons c0 f0) evt st).2.1)
            ((dispatchChildren (.cons c0 f0) evt st).2.2)).2.1) ∧
    (((dispatchChildren (.cons c0 f0) evt st).1).isSome = false →
      (handle_event (.mk i rect sk h bg rr (.cons c0 f0)) evt pb st).2.1 =
        pb ++ (busFilter i h ((dispatchChildren (.cons c0 f0) evt st).2.1)
            ((dispatchChildren (.cons c0 f0) evt st).2.2)).1 ++
          (busFilter i h ((dispatchChildren (.cons c0 f0) evt st).2.1)
            ((dispatchChildren (.cons c0 f0) evt st).2.2)).2.1 ++
          (h ((busFilter i h ((dispatchChildren (.cons c0 f0) evt st).2.1)
            ((dispatchChildren (.cons c0 f0) evt st).2.2)).2.2).ctx evt).2.2.1) := by
  refine ⟨busFilter_trace i h _ _, busFilter_kept_sublist i h _ _, ?_, ?_⟩
  · intro hc
    simp [handle_event, hsk, hc]
  · intro hc
    simp [handle_event, hsk, hc, runHandler]

/-- Witness for C6 (amended): a concrete capture where the child emits the
follow-up 10, which the parent handler does not consume while emitting 20:
the trace gains the offer (0, 10), the kept events are [10], and the
parent bus is extended with [10] then [20]. -/
theorem c6_bus_plumbing_witness :
    ((busFilter 0 (fun s e => (s, false, if e = 10 then [20] else [], ([] : List Unit)))
        ((dispatchChildren (.cons (.mk 1 ⟨0, 0, 3, 3⟩ (fun _ => false)
          (fun s _ => (s, true, [10], [])) false (fun r => r) .nil) .nil)
          0 (⟨(), [], []⟩ : DState Unit Nat Unit)).2.1)
        ((dispatchChildren (.cons (.mk 1 ⟨0, 0, 3, 3⟩ (fun _ => false)
          (fun s _ => (s, true, [10], [])) false (fun r => r) .nil) .nil)
          0 (⟨(), [], []⟩ : DState Unit Nat Unit)).2.2)).2.2).trace =
      ((dispatchChildren (.cons (.mk 1 ⟨0, 0, 3, 3⟩ (fun _ => false)
          (fun s _ => (s, true, [10], [])) false (fun r => r) .nil) .nil)
          0 (⟨(), [], []⟩ : DState Unit Nat Unit)).2.2).trace ++
        ((dispatchChildren (.cons (.mk 1 ⟨0, 0, 3, 3⟩ (fun _ => false)
          (fun s _ => (s, true, [10], [])) false (fun r => r) .nil) .nil)
          0 (⟨(), [], []⟩ : DState Unit Nat Unit)).2.1).map (fun e => (0, e)) ∧
    ((busFilter 0 (fun s e => (s, false, if e = 10 then [20] else [], ([] : List Unit)))
        ((dispatchChildren (.cons (.mk 1 ⟨0, 0, 3, 3⟩ (fun _ => false)
          (fun s _ => (s, true, [10], [])) false (fun r => r) .nil) .nil)
          0 (⟨(), [], []⟩ : DState Unit Nat Unit)).2.1)
        ((dispatchChildren (.cons (.mk 1 ⟨0, 0, 3, 3⟩ (fun _ => false)
          (fun s _ => (s, true, [10], [])) false (fun r => r) .nil) .nil)
          0 (⟨(), [], []⟩ : DState Unit Nat Unit)).2.2)).1).Sublist
      ((dispatchChildren (.cons (.mk 1 ⟨0, 0, 3, 3⟩ (fun _ => false)
          (fun s _ => (s, true, [10], [])) false (fun r => r) .nil) .nil)
          0 (⟨(), [], []⟩ : DState Unit Nat Unit)).2.1) ∧
    (((dispatchChildren (.cons (.mk 1 ⟨0, 0, 3, 3⟩ (fun _ => false)
          (fun s _ => (s, true, [10], [])) false (fun r => r) .nil) .nil)
          0 (⟨(), [], []⟩ : DState Unit Nat Unit)).1).isSome = true →
      (handle_event ((.mk 0 ⟨0, 0, 9, 9⟩ (fun _ => false)
          (fun s e => (s, false, if e = 10 then [20] else [], []))
          false (fun r => r)
          (.cons (.mk 1 ⟨0, 0, 3, 3⟩ (fun _ => false) (fun s _ => (s, true, [10], []))
            false (fun r => r) .nil) .nil)) : VNode Unit Nat Unit)
        0 [] ⟨(), [], []⟩).2.1 =
        [] ++ (busFilter 0 (fun s e => (s, false, if e = 10 then [20] else [],
            ([] : List Unit)))
          ((dispatchChildren (.cons (.mk 1 ⟨0, 0, 3, 3⟩ (fun _ => false)
            (fun s _ => (s, true, [10], [])) false (fun r => r) .nil) .nil)
            0 (⟨(), [], []⟩ : DState Unit Nat Unit)).2.1)
          ((dispatchChildren (.cons (.mk 1 ⟨0, 0, 3, 3⟩ (fun _ => false)
            (fun s _ => (s, true, [10], [])) false (fun r => r) .nil) .nil)
            0 (⟨(), [], []⟩ : DState Unit Nat Unit)).2.2)).1 ++
          (busFilter 0 (fun s e => (s, false, if e = 10 then [20] else [],
            ([] : List Unit)))
          ((dispatchChildren (.cons (.mk 1 ⟨0, 0, 3, 3⟩ (fun _ => false)
            (fun s _ => (s, true, [10], [])) false (fun r => r) .nil) .nil)
            0 (⟨(), [], []⟩ : DState Unit Nat Unit)).2.1)
          ((dispatchChildren (.cons (.mk 1 ⟨0, 0, 3, 3⟩ (fun _ => false)
            (fun s _ => (s, true, [10], [])) false (fun r => r) .nil) .nil)
            0 (⟨(), [], []⟩ : DState Unit Nat Unit)).2.2)).2.1) ∧
    (((dispatchChildren (.cons (.mk 1 ⟨0, 0, 3, 3⟩ (fun _ => false)
          (fun s _ => (s, true, [10], [])) false (fun r => r) .nil) .nil)
          0 (⟨(), [], []⟩ : DState Unit Nat Unit)).1).isSome = false →
      (handle_event ((.mk 0 ⟨0, 0, 9, 9⟩ (fun _ => false)
          (fun s e => (s, false, if e = 10 then [20] else [], []))
          false (fun r => r)
          (.cons (.mk 1 ⟨0, 0, 3, 3⟩ (fun _ => false) (fun s _ => (s, true, [10], []))
            false (fun r => r) .nil) .nil)) : VNode Unit Nat Unit)
        0 [] ⟨(), [], []⟩).2.1 =
        [] ++ (busFilter 0 (fun s e => (s, false, if e = 10 then [20] else [],
            ([] : List Unit)))
          ((dispatchChildren (.cons (.mk 1 ⟨0, 0, 3, 3⟩ (fun _ => false)
            (fun s _ => (s, true, [10], [])) false (fun r => r) .nil) .nil)
            0 (⟨(), [], []⟩ : DState Unit Nat Unit)).2.1)
          ((dispatchChildren (.cons (.mk 1 ⟨0, 0, 3, 3⟩ (fun _ => false)
            (fun s _ => (s, true, [10], [])) false (fun r => r) .nil) .nil)
            0 (⟨(), [], []⟩ : DState Unit Nat Unit)).2.2)).1 ++
          (busFilter 0 (fun s e => (s, false, if e = 10 then [20] else [],
            ([] : List Unit)))
          ((dispatchChildren (.cons (.mk 1 ⟨0, 0, 3, 3⟩ (fun _ => false)
            (fun s _ => (s, true, [10], [])) false (fun r => r) .nil) .nil)
            0 (⟨(), [], []⟩ : DState Unit Nat Unit)).2.1)
          ((dispatchChildren (.cons (.mk 1 ⟨0, 0, 3, 3⟩ (fun _ => false)
            (fun s _ => (s, true, [10], [])) false (fun r => r) .nil) .nil)
            0 (⟨(), [], []⟩ : DState Unit Nat Unit)).2.2)).2.1 ++
          ((fun (s : Unit) (e : Nat) => (s, false, if e = 10 then [20] else [],
            ([] : List Unit)))
            ((busFilter 0 (fun s e => (s, false, if e = 10 then [20] else [],
              ([] : List Unit)))
            ((dispatchChildren (.cons (.mk 1 ⟨0, 0, 3, 3⟩ (fun _ => false)
              (fun s _ => (s, true, [10], [])) false (fun r => r) .nil) .nil)
              0 (⟨(), [], []⟩ : DState Unit Nat Unit)).2.1)
            ((dispatchChildren (.cons (.mk 1 ⟨0, 0, 3, 3⟩ (fun _ => false)
              (fun s _ => (s, true, [10], [])) false (fun r => r) .nil) .nil)
              0 (⟨(), [], []⟩ : DState Unit Nat Unit)).2.2)).2.2).ctx 0).2.2.1) :=
  c6_bus_plumbing 0 ⟨0, 0, 9, 9⟩ (fun _ => false)
    (fun s e => (s, false, if e = 10 then [20] else [], []))
    false (fun r => r)
    (.mk 1 ⟨0, 0, 3, 3⟩ (fun _ => false) (fun s _ => (s, true, [10], []))
      false (fun r => r) .nil) .nil
    0 [] ⟨(), [], []⟩ rfl

/-- C6 counterexample: the parent bus is extended with [10, 20] where 20
was emitted by the node's own handler during the filtering pass and never
sat on the child bus ([10]): the temporary bus holds handler emissions,
not the unconsumed child-bus events the claim describes, so the appended
events are not drawn from the child bus alone. -/
theorem c6_temp_bus_cex :
    (handle_event ((.mk 0 ⟨0, 0, 9, 9⟩ (fun _ => false)
        (fun s e => (s, false, if e = 10 then [20] else [], []))
        false (fun r => r)
        (.cons (.mk 1 ⟨0, 0, 3, 3⟩ (fun _ => false) (fun s _ => (s, true, [10], []))
          false (fun r => r) .nil) .nil)) : VNode Unit Nat Unit)
      0 [] ⟨(), [], []⟩).2.1 = [10, 20] ∧
    (dispatchChildren (.cons (.mk 1 ⟨0, 0, 3, 3⟩ (fun _ => false)
        (fun s _ => (s, true, [10], [])) false (fun r => r) .nil) .nil)
      0 (⟨(), [], []⟩ : DState Unit Nat Unit)).2.1 = [10] ∧
    (20 : Nat) ∉ [(10 : Nat)] := by
  refine ⟨rfl, rfl, ?_⟩
  decide

end Plato
